import Mathlib

/-!
Shallow embedding of the Telegram order-intake bot (`src/tlgbot.py`).

Modelling conventions:
* Python `float` prices and multipliers are embedded as exact rationals `ℚ`
  (all catalog constants are small decimals).
* `datetime` timestamps are embedded as integers (seconds); each operation of
  the session manager receives the current time `now : ℤ` explicitly, standing
  for its internal `datetime.now()` calls (which are collapsed to one instant
  per operation, as the claims only depend on step/data/files/presence).
* The session store `self.sessions : Dict[int, UserSession]` is embedded as an
  insertion-ordered association list `List (ℤ × UserSession)`; Python's dict
  assignment replaces an existing key in place and otherwise appends.
* A session's `data : Dict[str, Any]` is likewise an association list of
  dynamically-typed values `Val` (string / int / float).
* Outbound Telegram messages are dropped (only the pieces of rendered text the
  claims mention are modelled, as explicit projection functions); the one send
  whose success changes core state (the support relay, which clears the session
  only when delivery succeeds) is modelled by a `sendOk : Bool` parameter.
-/

namespace TlgBot

/-- `class Config` constants (`src/tlgbot.py` lines 14-20). -/
def MAX_SESSIONS : ℕ := 100

/-- `Config.SESSION_TIMEOUT` in seconds. -/
def SESSION_TIMEOUT : ℤ := 1800

/-- `Config.MAX_FILES_PER_ORDER`. -/
def MAX_FILES_PER_ORDER : ℕ := 5

/-- Dynamically-typed values stored in a session's `data` dict. -/
inductive Val where
  | vs (s : String)
  | vi (n : ℤ)
  | vq (q : ℚ)
  deriving DecidableEq, Repr

/-- One entry of `UserSession.files` (the dict appended by `add_file`). -/
structure FileEntry where
  file_id : String
  file_name : String
  file_size : ℤ
  uploaded_at : ℤ
  deriving DecidableEq, Repr

/-- `@dataclass class UserSession` (lines 31-38). -/
structure UserSession where
  user_id : ℤ
  step : String
  data : List (String × Val)
  created_at : ℤ
  last_activity : ℤ
  files : List FileEntry
  deriving DecidableEq, Repr

/-- Python `d.get(key)` on a session-data dict. -/
def dictGet (key : String) : List (String × Val) → Option Val
  | [] => none
  | kv :: rest => if kv.1 = key then some kv.2 else dictGet key rest

/-- Python `d[key] = v` on a session-data dict: replaces in place, else appends. -/
def dictInsert (key : String) (v : Val) : List (String × Val) → List (String × Val)
  | [] => [(key, v)]
  | kv :: rest => if kv.1 = key then (key, v) :: rest else kv :: dictInsert key v rest

/-- Python `d.update(patch)`: key-wise overwrite. -/
def dictUpdate (d patch : List (String × Val)) : List (String × Val) :=
  patch.foldl (fun acc kv => dictInsert kv.1 kv.2 acc) d

/-- The session store `SessionManager.sessions : Dict[int, UserSession]`. -/
abbrev Store := List (ℤ × UserSession)

/-- Python `self.sessions.get(user_id)`. -/
def storeLookup (uid : ℤ) : Store → Option UserSession
  | [] => none
  | kv :: rest => if kv.1 = uid then some kv.2 else storeLookup uid rest

/-- Python `self.sessions[user_id] = session`. -/
def storeInsert (uid : ℤ) (s : UserSession) : Store → Store
  | [] => [(uid, s)]
  | kv :: rest => if kv.1 = uid then (uid, s) :: rest else kv :: storeInsert uid s rest

/-- Python `self.sessions.pop(user_id, None)` / `del self.sessions[uid]`. -/
def storeErase (uid : ℤ) : Store → Store
  | [] => []
  | kv :: rest => if kv.1 = uid then rest else kv :: storeErase uid rest

/-- Well-formedness of the embedded dict: keys are distinct (always true of a
Python dict; used as a side condition where lemmas need it). -/
def storeWF (m : Store) : Prop := (m.map Prod.fst).Nodup

/-- `@dataclass class AcademicLevel` (lines 51-55). -/
structure AcademicLevel where
  name : String
  emoji : String
  base_price : ℚ
  deriving DecidableEq, Repr

/-- `AcademicConfig.LEVELS` (lines 59-64), as a lookup function (`dict.get`). -/
def LEVELS (key : String) : Option AcademicLevel :=
  if key = "lycee" then some { name := "Lycée", emoji := "🎓", base_price := 18 }
  else if key = "bachelor" then some { name := "Licence", emoji := "📚", base_price := 22 }
  else if key = "master" then some { name := "Master", emoji := "🎯", base_price := 26 }
  else if key = "phd" then some { name := "Doctorat", emoji := "🔬", base_price := 32 }
  else none

/-- `AcademicConfig.DEADLINES` (lines 66-74): label and multiplier. -/
def DEADLINES (key : String) : Option (String × ℚ) :=
  if key = "6h" then some ("Express - 6h", 1.8)
  else if key = "12h" then some ("Urgent - 12h", 1.7)
  else if key = "24h" then some ("Rapide - 24h", 1.5)
  else if key = "48h" then some ("Standard - 48h", 1.3)
  else if key = "3d" then some ("Normal - 3j", 1.2)
  else if key = "7d" then some ("Planifié - 7j", 1.0)
  else if key = "14d" then some ("Économique - 14j", 0.9)
  else none

/-- `Utils.calculate_price` (lines 131-139).  The `level` and `deadline`
arguments are `Option String` because the call site in
`handle_deadline_selection` passes `session.data.get('level')`, which can be
Python `None`; `LEVELS.get(None)` misses, exactly as `Option.bind` does here. -/
def calculate_price (level deadline : Option String) (pages : ℤ) : ℚ :=
  match level.bind LEVELS with
  | none => 0
  | some level_data =>
      let multiplier := ((deadline.bind DEADLINES).getD ("", 1)).2
      let base_price := level_data.base_price * multiplier * (pages : ℚ)
      min base_price (50 * (pages : ℚ))

/-- `SessionManager.cleanup_old_sessions` (lines 87-95): deletes every session
with `now - last_activity > SESSION_TIMEOUT`, i.e. keeps exactly those with
`now - last_activity ≤ SESSION_TIMEOUT`. -/
def cleanup_old_sessions (now : ℤ) (m : Store) : Store :=
  m.filter (fun kv => decide (now - kv.2.last_activity ≤ SESSION_TIMEOUT))

/-- `SessionManager.get_session` (lines 97-105): sweeps only when the store
holds more than `MAX_SESSIONS` entries, then looks the user up and, when found,
touches `last_activity`.  Returns the (touched) session and the new store. -/
def get_session (now : ℤ) (m : Store) (uid : ℤ) : Option UserSession × Store :=
  let m1 := if MAX_SESSIONS < m.length then cleanup_old_sessions now m else m
  match storeLookup uid m1 with
  | none => (none, m1)
  | some s =>
      let s1 := { s with last_activity := now }
      (some s1, storeInsert uid s1 m1)

/-- `SessionManager.create_session` (lines 107-116): unconditionally builds a
fresh session (empty `data`, empty `files`) and stores it under the user id. -/
def create_session (now : ℤ) (m : Store) (uid : ℤ) (step : String) : UserSession × Store :=
  let s : UserSession :=
    { user_id := uid, step := step, data := [], created_at := now,
      last_activity := now, files := [] }
  (s, storeInsert uid s m)

/-- `SessionManager.update_session` (lines 118-124).  `step = None` or `""` is
falsy (`if step:`), as is `data = None` or `{}` (`if data:`).  When no session
exists, one is implicitly created at the default step `'menu'`. -/
def update_session (now : ℤ) (m : Store) (uid : ℤ) (step : Option String)
    (patch : Option (List (String × Val))) : Store :=
  let r := get_session now m uid
  let sm : UserSession × Store :=
    match r.1 with
    | some s => (s, r.2)
    | none => create_session now r.2 uid "menu"
  let s1 := match step with
    | some st => if st = "" then sm.1 else { sm.1 with step := st }
    | none => sm.1
  let s2 := match patch with
    | some p => if p = [] then s1 else { s1 with data := dictUpdate s1.data p }
    | none => s1
  let s3 := { s2 with last_activity := now }
  storeInsert uid s3 sm.2

/-- `SessionManager.clear_session` (lines 126-127). -/
def clear_session (m : Store) (uid : ℤ) : Store :=
  storeErase uid m

/-- `UserSession.add_file` (lines 40-49): appends only while strictly below
`MAX_FILES_PER_ORDER`; returns whether the file was appended. -/
def UserSession.add_file (s : UserSession) (file_id file_name : String)
    (file_size now : ℤ) : Bool × UserSession :=
  if s.files.length < MAX_FILES_PER_ORDER then
    (true, { s with files := s.files ++
      [{ file_id := file_id, file_name := file_name, file_size := file_size,
         uploaded_at := now }] })
  else (false, s)

/-- Python whitespace characters removed by `str.strip()` (ASCII range). -/
def isPySpace (c : Char) : Bool :=
  c == ' ' || c == '\t' || c == '\n' || c == '\x0d' || c == '\x0b' || c == '\x0c'

/-- Python `str.strip()`. -/
def pyStrip (s : String) : String :=
  ⟨((s.data.dropWhile isPySpace).reverse.dropWhile isPySpace).reverse⟩

/-- Digit tail of a Python integer literal: digits with single underscores
allowed between digits (`int("1_0") = 10`, `int("1__0")` raises). -/
def pyDigitsCore (acc : ℕ) : List Char → Option ℕ
  | [] => some acc
  | '_' :: rest =>
      match rest with
      | [] => none
      | c :: rest2 =>
          if c.isDigit then pyDigitsCore (10 * acc + (c.toNat - 48)) rest2 else none
  | c :: rest =>
      if c.isDigit then pyDigitsCore (10 * acc + (c.toNat - 48)) rest else none

/-- Unsigned part of Python `int(...)` parsing: must start with a digit. -/
def pyParseNat : List Char → Option ℕ
  | [] => none
  | c :: rest => if c.isDigit then pyDigitsCore (c.toNat - 48) rest else none

/-- Python `int(s)` on an already-stripped string: optional sign, then digits;
`none` models the `ValueError`. -/
def pyParseInt (s : String) : Option ℤ :=
  match s.data with
  | '+' :: rest => (pyParseNat rest).map (fun n => (n : ℤ))
  | '-' :: rest => (pyParseNat rest).map (fun n => -(n : ℤ))
  | cs => (pyParseNat cs).map (fun n => (n : ℤ))

/-- If `pat` is a prefix of the list, the remainder after it. -/
def dropPrefixChars (pat cs : List Char) : Option (List Char) :=
  match pat, cs with
  | [], rest => some rest
  | _ :: _, [] => none
  | p :: ps, c :: rest => if c = p then dropPrefixChars ps rest else none

/-- Python `str.replace` on char lists (all non-overlapping occurrences, left
to right), with explicit fuel so that the recursion is structural; each step
consumes at least one character, so `fuel = cs.length` is always enough. -/
def replaceFuel (p : Char) (ps repl : List Char) : ℕ → List Char → List Char
  | 0, cs => cs
  | _ + 1, [] => []
  | fuel + 1, c :: cs =>
    match dropPrefixChars (p :: ps) (c :: cs) with
    | some rest => repl ++ replaceFuel p ps repl fuel rest
    | none => c :: replaceFuel p ps repl fuel cs

/-- Python `s.replace(pat, repl)` as used by the button handlers (the pattern
is never empty there; an empty pattern returns `s` unchanged here). -/
def pyReplace (s pat repl : String) : String :=
  match pat.data with
  | [] => s
  | p :: ps => ⟨replaceFuel p ps repl.data s.data.length s.data⟩

/-- A menu session whose `last_activity` is time 0 (long expired by time
10000). -/
def expiredSession (i : ℤ) : UserSession :=
  { user_id := i, step := "menu", data := [], created_at := 0,
    last_activity := 0, files := [] }

/-- A store holding 101 expired sessions: one more than `MAX_SESSIONS`. -/
def bigStore : Store :=
  (List.range 101).map (fun i => ((i : ℤ), expiredSession i))

/-- `handle_support_message` (lines 362-401), store effect only: on successful
delivery to the admin the session is cleared; on a send failure it is kept. -/
def handle_support_message (sendOk : Bool) (m : Store) (uid : ℤ) : Store :=
  if sendOk then clear_session m uid else m

/-- `text_handler` (lines 736-822), store effect.  The replies are dropped;
branches are on the current (touched) session's `step`. -/
def text_handler (now : ℤ) (sendOk : Bool) (m : Store) (uid : ℤ)
    (message_text : String) : Store :=
  let r := get_session now m uid
  match r.1 with
  | none => r.2
  | some s =>
    if s.step = "order_subject" then
      update_session now r.2 uid (some "order_level") (some [("subject", Val.vs message_text)])
    else if s.step = "order_pages" then
      match pyParseInt (pyStrip message_text) with
      | none => r.2
      | some pages =>
          if pages ≤ 0 ∨ 50 < pages then r.2
          else update_session now r.2 uid (some "order_deadline") (some [("pages", Val.vi pages)])
    else if s.step = "order_instructions" then
      update_session now r.2 uid (some "order_files") (some [("instructions_text", Val.vs message_text)])
    else if s.step = "support" then
      handle_support_message sendOk r.2 uid
    else r.2

/-- Inbound attachment kinds seen by `file_handler` (document / photo / other). -/
inductive FileMsg where
  | document (file_id : String) (file_name : Option String) (file_size : Option ℤ)
  | photo (file_id : String) (file_size : Option ℤ)
  | other
  deriving DecidableEq, Repr

/-- Python `x or d` for an optional string (`None` and `""` are falsy). -/
def orElseStr (x : Option String) (d : String) : String :=
  match x with
  | some v => if v = "" then d else v
  | none => d

/-- Python `x or 0` for an optional int. -/
def orElseInt (x : Option ℤ) : ℤ :=
  match x with
  | some v => v
  | none => 0

/-- `file_handler` (lines 404-478), store effect: rejects when there is no
session at step `'order_files'`, when the file cap is reached, on unsupported
kinds, and on files over 20 MiB; otherwise appends via `add_file` (the Python
session object is mutated in place, modelled by re-inserting it). -/
def file_handler (now : ℤ) (m : Store) (uid : ℤ) (msg : FileMsg) : Store :=
  let r := get_session now m uid
  match r.1 with
  | none => r.2
  | some s =>
    if s.step ≠ "order_files" then r.2
    else if MAX_FILES_PER_ORDER ≤ s.files.length then r.2
    else
      match msg with
      | FileMsg.other => r.2
      | FileMsg.document fid name size =>
          let file_name := orElseStr name "document"
          let file_size := orElseInt size
          if 20 * 1024 * 1024 < file_size then r.2
          else storeInsert uid (s.add_file fid file_name file_size now).2 r.2
      | FileMsg.photo fid size =>
          let file_name := "image_" ++ toString (s.files.length + 1) ++ ".jpg"
          let file_size := orElseInt size
          if 20 * 1024 * 1024 < file_size then r.2
          else storeInsert uid (s.add_file fid file_name file_size now).2 r.2

/-- `start_order_flow` (lines 288-301), store effect: a fresh session at step
`'order_subject'` unconditionally replaces whatever was there. -/
def start_order_flow (now : ℤ) (m : Store) (uid : ℤ) : Store :=
  (create_session now m uid "order_subject").2

/-- First projection of a data value expected to be a string (an entry absent
or of another runtime type behaves as an unknown catalog key / Python `None`). -/
def valToStr : Option Val → Option String
  | some (Val.vs s) => some s
  | _ => none

/-- Data value expected to be an int, with a default (Python `d.get(k, 1)`);
the `'pages'` entry is only ever written as an int by `text_handler`. -/
def valToInt (v : Option Val) (d : ℤ) : ℤ :=
  match v with
  | some (Val.vi n) => n
  | _ => d

/-- Data value expected to be a price, with a default (Python `d.get(k, 0)`);
the `'final_price'` entry is only ever written as a float. -/
def valToQ (v : Option Val) (d : ℚ) : ℚ :=
  match v with
  | some (Val.vq q) => q
  | _ => d

/-- `handle_level_selection` (lines 540-557).  The session is updated *before*
the display line `AcademicConfig.LEVELS[level_key]`; the returned flag is
whether that subscript succeeded (`false` models the `KeyError` that the
`button_handler` catch turns into a generic error, with no rollback). -/
def handle_level_selection (now : ℤ) (m : Store) (uid : ℤ) (cbdata : String) :
    Store × Bool :=
  let level_key := pyReplace cbdata "level_" ""
  let m2 := update_session now m uid (some "order_pages") (some [("level", Val.vs level_key)])
  (m2, (LEVELS level_key).isSome)

/-- `handle_deadline_selection` (lines 559-587).  The flag is whether the
handler ran to completion (`false` models the `AttributeError` on
`session.data` when no session existed; note the implicit session that
`update_session` created is then left behind). -/
def handle_deadline_selection (now : ℤ) (m : Store) (uid : ℤ) (cbdata : String) :
    Store × Bool :=
  let deadline_key := pyReplace cbdata "deadline_" ""
  let r := get_session now m uid
  let m2 := update_session now r.2 uid (some "order_instructions")
    (some [("deadline", Val.vs deadline_key)])
  match r.1 with
  | none => (m2, false)
  | some _ =>
    match storeLookup uid m2 with
    | none => (m2, false)
    | some s2 =>
        let final_price := calculate_price (valToStr (dictGet "level" s2.data))
          (some deadline_key) (valToInt (dictGet "pages" s2.data) 1)
        (update_session now m2 uid none (some [("final_price", Val.vq final_price)]), true)

/-- The price rendered by `display_order_summary` (lines 589-621): `none` when
the session is absent (the "Session expirée" branch) or when the catalog
subscripts `LEVELS[...]` / `DEADLINES[...]` raise `KeyError`; otherwise
`session.data.get('final_price', 0)`. -/
def display_order_summary_price (now : ℤ) (m : Store) (uid : ℤ) : Option ℚ :=
  match (get_session now m uid).1 with
  | none => none
  | some s =>
    match (valToStr (dictGet "level" s.data)).bind LEVELS with
    | none => none
    | some _ =>
      match (valToStr (dictGet "deadline" s.data)).bind DEADLINES with
      | none => none
      | some _ => some (valToQ (dictGet "final_price" s.data) 0)

/-- The price rendered by `send_payment_info` (lines 636-688): `none` when the
session is absent, else `session.data.get('final_price', 0)`. -/
def send_payment_info_price (now : ℤ) (m : Store) (uid : ℤ) : Option ℚ :=
  match (get_session now m uid).1 with
  | none => none
  | some s => some (valToQ (dictGet "final_price" s.data) 0)

/-- Proof helper: the step resulting from `update_session`'s `if step:`. -/
def stepUpd (st : Option String) (old : String) : String :=
  match st with
  | some t => if t = "" then old else t
  | none => old

/-- Proof helper: the data resulting from `update_session`'s `if data:`. -/
def dataUpd (patch : Option (List (String × Val))) (old : List (String × Val)) :
    List (String × Val) :=
  match patch with
  | some p => if p = [] then old else dictUpdate old p
  | none => old

/-! ### Concrete evaluations of the embedded functions -/

example : calculate_price (some "bachelor") (some "24h") 2 = 66 := by
  simp +decide [calculate_price, LEVELS, DEADLINES, min_def]
  norm_num
example : calculate_price (some "phd") (some "6h") 3 = 150 := by
  simp +decide [calculate_price, LEVELS, DEADLINES, min_def]
  norm_num
example : calculate_price (some "zzz") (some "6h") 3 = 0 := by
  simp +decide [calculate_price, LEVELS]
example : calculate_price none (some "6h") 3 = 0 := by
  simp [calculate_price]
example : calculate_price (some "phd") (some "zzz") 1 = 32 := by
  simp +decide [calculate_price, LEVELS, DEADLINES, min_def]
example : pyParseInt (pyStrip "  5 ") = some 5 := by decide
example : pyParseInt (pyStrip "-3") = some (-3) := by decide
example : pyParseInt (pyStrip "abc") = none := by decide
example : pyParseInt (pyStrip "5.0") = none := by decide
example : pyParseInt (pyStrip "1_0") = some 10 := by decide
example : pyReplace "level_zzz" "level_" "" = "zzz" := by decide
example : pyReplace "deadline_24h" "deadline_" "" = "24h" := by decide
example : pyReplace "level_level_x" "level_" "" = "x" := by decide
example : pyReplace "abc" "level_" "" = "abc" := by decide

/-! ### Lemmas about the embedded dict operations -/

theorem storeLookup_storeInsert_self (uid : ℤ) (s : UserSession) (m : Store) :
    storeLookup uid (storeInsert uid s m) = some s := by
  induction m with
  | nil => simp [storeInsert, storeLookup]
  | cons kv rest ih =>
      by_cases h : kv.1 = uid
      · simp [storeInsert, storeLookup, h]
      · simp [storeInsert, storeLookup, h, ih]

theorem storeLookup_storeInsert_ne (uid k : ℤ) (s : UserSession) (m : Store)
    (h : uid ≠ k) : storeLookup uid (storeInsert k s m) = storeLookup uid m := by
  induction m with
  | nil => simp [storeInsert, storeLookup, Ne.symm h]
  | cons kv rest ih =>
      by_cases hk : kv.1 = k
      · simp [storeInsert, storeLookup, hk, h, Ne.symm h]
      · by_cases hu : kv.1 = uid
        · simp [storeInsert, storeLookup, hk, hu, h]
        · simp [storeInsert, storeLookup, hk, hu, ih]

theorem length_storeInsert_of_lookup (uid : ℤ) (t : UserSession) (m : Store)
    (s : UserSession) (h : storeLookup uid m = some s) :
    (storeInsert uid t m).length = m.length := by
  induction m with
  | nil => simp [storeLookup] at h
  | cons kv rest ih =>
      by_cases hk : kv.1 = uid
      · simp [storeInsert, hk]
      · simp only [storeLookup, if_neg hk] at h
        simp [storeInsert, hk, ih h]

theorem storeInsert_storeInsert (uid : ℤ) (a b : UserSession) (m : Store) :
    storeInsert uid a (storeInsert uid b m) = storeInsert uid a m := by
  induction m with
  | nil => simp [storeInsert]
  | cons kv rest ih =>
      by_cases h : kv.1 = uid
      · simp [storeInsert, h]
      · simp [storeInsert, h, ih]

theorem dictGet_dictInsert_self (k : String) (v : Val) (d : List (String × Val)) :
    dictGet k (dictInsert k v d) = some v := by
  induction d with
  | nil => simp [dictInsert, dictGet]
  | cons kv rest ih =>
      by_cases h : kv.1 = k
      · simp [dictInsert, dictGet, h]
      · simp [dictInsert, dictGet, h, ih]

theorem dictGet_dictInsert_ne (k k2 : String) (v : Val) (d : List (String × Val))
    (h : k ≠ k2) : dictGet k (dictInsert k2 v d) = dictGet k d := by
  induction d with
  | nil => simp [dictInsert, dictGet, Ne.symm h]
  | cons kv rest ih =>
      by_cases hk : kv.1 = k2
      · simp [dictInsert, dictGet, hk, Ne.symm h]
      · by_cases hu : kv.1 = k
        · simp [dictInsert, dictGet, hk, hu, h]
        · simp [dictInsert, dictGet, hk, hu, ih]

theorem storeLookup_eq_none_of_not_mem (uid : ℤ) (m : Store)
    (h : uid ∉ m.map Prod.fst) : storeLookup uid m = none := by
  induction m with
  | nil => simp [storeLookup]
  | cons kv rest ih =>
      simp only [List.map_cons, List.mem_cons] at h
      push_neg at h
      simp [storeLookup, Ne.symm h.1, ih h.2]

theorem storeLookup_filter_pos (p : ℤ × UserSession → Bool) (m : Store) (uid : ℤ)
    (s : UserSession) (h : storeLookup uid m = some s) (hp : p (uid, s) = true) :
    storeLookup uid (m.filter p) = some s := by
  induction m with
  | nil => simp [storeLookup] at h
  | cons kv rest ih =>
      obtain ⟨a, b⟩ := kv
      by_cases hk : a = uid
      · subst hk
        simp only [storeLookup, if_pos rfl] at h
        cases h
        simp [List.filter_cons, hp, storeLookup]
      · simp only [storeLookup, if_neg hk] at h
        cases hpk : p (a, b) with
        | true => simp [List.filter_cons, hpk, storeLookup, hk, ih h]
        | false =>
            simp only [List.filter_cons, hpk, Bool.false_eq_true, if_false]
            exact ih h

theorem storeLookup_filter_neg (p : ℤ × UserSession → Bool) (m : Store) (uid : ℤ)
    (s : UserSession) (hwf : storeWF m) (h : storeLookup uid m = some s)
    (hp : p (uid, s) = false) : storeLookup uid (m.filter p) = none := by
  induction m with
  | nil => simp [storeLookup] at h
  | cons kv rest ih =>
      obtain ⟨a, b⟩ := kv
      simp only [storeWF, List.map_cons, List.nodup_cons] at hwf
      by_cases hk : a = uid
      · subst hk
        simp only [storeLookup, if_pos rfl] at h
        cases h
        simp only [List.filter_cons, hp, Bool.false_eq_true, if_false]
        refine storeLookup_eq_none_of_not_mem _ _ (fun hmem => hwf.1 ?_)
        exact (List.Sublist.map Prod.fst (List.filter_sublist rest)).subset hmem
      · simp only [storeLookup, if_neg hk] at h
        cases hpk : p (a, b) with
        | true =>
            simp only [List.filter_cons, hpk, if_true, storeLookup, if_neg hk]
            exact ih hwf.2 h
        | false =>
            simp only [List.filter_cons, hpk, Bool.false_eq_true, if_false]
            exact ih hwf.2 h

/-! ### Characterisation of the session-manager operations on small stores -/

theorem get_session_of_le (now : ℤ) (m : Store) (uid : ℤ)
    (h : m.length ≤ MAX_SESSIONS) :
    get_session now m uid =
      (match storeLookup uid m with
       | none => (none, m)
       | some s => (some { s with last_activity := now },
                    storeInsert uid { s with last_activity := now } m)) := by
  have h2 : ¬ (MAX_SESSIONS < m.length) := Nat.not_lt.2 h
  simp [get_session, h2]

theorem get_session_found (now : ℤ) (m : Store) (uid : ℤ) (s : UserSession)
    (hlen : m.length ≤ MAX_SESSIONS) (h : storeLookup uid m = some s) :
    get_session now m uid =
      (some { s with last_activity := now },
       storeInsert uid { s with last_activity := now } m) := by
  rw [get_session_of_le now m uid hlen, h]

theorem update_session_eq (now : ℤ) (m : Store) (uid : ℤ) (st : Option String)
    (patch : Option (List (String × Val))) (s : UserSession)
    (h : storeLookup uid m = some s) (hlen : m.length ≤ MAX_SESSIONS) :
    update_session now m uid st patch =
      storeInsert uid
        { s with step := stepUpd st s.step, data := dataUpd patch s.data,
                 last_activity := now } m := by
  simp only [update_session, get_session_found now m uid s hlen h]
  cases st with
  | none =>
      cases patch with
      | none => simp [stepUpd, dataUpd, storeInsert_storeInsert]
      | some p =>
          by_cases hp : p = []
          · simp [stepUpd, dataUpd, hp, storeInsert_storeInsert]
          · simp [stepUpd, dataUpd, hp, storeInsert_storeInsert]
  | some t =>
      by_cases ht : t = ""
      · cases patch with
        | none => simp [stepUpd, dataUpd, ht, storeInsert_storeInsert]
        | some p =>
            by_cases hp : p = []
            · simp [stepUpd, dataUpd, ht, hp, storeInsert_storeInsert]
            · simp [stepUpd, dataUpd, ht, hp, storeInsert_storeInsert]
      · cases patch with
        | none => simp [stepUpd, dataUpd, ht, storeInsert_storeInsert]
        | some p =>
            by_cases hp : p = []
            · simp [stepUpd, dataUpd, ht, hp, storeInsert_storeInsert]
            · simp [stepUpd, dataUpd, ht, hp, storeInsert_storeInsert]

/-- A single-key patch is just a dict insertion. -/
theorem dictUpdate_single (d : List (String × Val)) (k : String) (v : Val) :
    dictUpdate d [(k, v)] = dictInsert k v d := rfl

theorem stepUpd_some (t old : String) (h : t ≠ "") : stepUpd (some t) old = t := by
  simp [stepUpd, h]

theorem dataUpd_single (k : String) (v : Val) (old : List (String × Val)) :
    dataUpd (some [(k, v)]) old = dictInsert k v old := by
  simp [dataUpd, dictUpdate_single]

/-! ### Claim theorems -/

/-- C1: for every catalog level `L`, deadline `D` and pages `P ≥ 1`,
`calculate_price L D P = min (basePrice L * multiplier D * P) (50 * P)`; in
particular it is always at most `50 * P` and equals the raw product whenever
that product is at most `50 * P`.  Concretely,
`calculate_price 'bachelor' '24h' 2 = 66.00` and
`calculate_price 'phd' '6h' 3 = 150.00`. -/
theorem calculate_price_ceiling :
    (∀ (L D : String) (P : ℤ) (ld : AcademicLevel) (dd : String × ℚ),
        LEVELS L = some ld → DEADLINES D = some dd → 1 ≤ P →
        calculate_price (some L) (some D) P
            = min (ld.base_price * dd.2 * (P : ℚ)) (50 * (P : ℚ)) ∧
          calculate_price (some L) (some D) P ≤ 50 * (P : ℚ) ∧
          (ld.base_price * dd.2 * (P : ℚ) ≤ 50 * (P : ℚ) →
            calculate_price (some L) (some D) P = ld.base_price * dd.2 * (P : ℚ))) ∧
    calculate_price (some "bachelor") (some "24h") 2 = 66 ∧
    calculate_price (some "phd") (some "6h") 3 = 150 := by
  refine ⟨?_, ?_, ?_⟩
  · intro L D P ld dd hL hD _
    have hcp : calculate_price (some L) (some D) P
        = min (ld.base_price * dd.2 * (P : ℚ)) (50 * (P : ℚ)) := by
      simp only [calculate_price, Option.some_bind, hL, hD, Option.getD_some]
    exact ⟨hcp, hcp ▸ min_le_right _ _, fun hle => hcp.trans (min_eq_left hle)⟩
  · simp +decide [calculate_price, LEVELS, DEADLINES, min_def]
    norm_num
  · simp +decide [calculate_price, LEVELS, DEADLINES, min_def]
    norm_num

/-- Witness for C1 at level `bachelor`, deadline `24h`, pages `2`. -/
theorem calculate_price_ceiling_witness :
    calculate_price (some "bachelor") (some "24h") 2 ≤ 50 * ((2 : ℤ) : ℚ) :=
  (calculate_price_ceiling.1 "bachelor" "24h" 2
    { name := "Licence", emoji := "📚", base_price := 22 }
    ("Rapide - 24h", 1.5) rfl rfl (by norm_num)).2.1

/-- C2: an unknown level key makes `calculate_price` return 0 (no error); an
unknown deadline key defaults the multiplier to 1.0, so the result is
`min (basePrice L * 1.0 * P) (50 * P)`. -/
theorem calculate_price_unknown_keys :
    (∀ (L : String) (D : Option String) (P : ℤ), LEVELS L = none →
        calculate_price (some L) D P = 0) ∧
    (∀ (L D : String) (P : ℤ) (ld : AcademicLevel), LEVELS L = some ld →
        DEADLINES D = none →
        calculate_price (some L) (some D) P
          = min (ld.base_price * 1 * (P : ℚ)) (50 * (P : ℚ))) := by
  constructor
  · intro L D P hL
    simp [calculate_price, hL]
  · intro L D P ld hL hD
    simp only [calculate_price, Option.some_bind, hL, hD, Option.getD_none]

/-- Witness for C2: level key `"unknown"` is not in the catalog and yields 0;
deadline key `"zzz"` is not in the catalog and the multiplier defaults to 1. -/
theorem calculate_price_unknown_keys_witness :
    calculate_price (some "unknown") (some "24h") 7 = 0 ∧
    calculate_price (some "phd") (some "zzz") 4
      = min (((32 : ℚ)) * 1 * ((4 : ℤ) : ℚ)) (50 * ((4 : ℤ) : ℚ)) :=
  ⟨calculate_price_unknown_keys.1 "unknown" (some "24h") 7 rfl,
   calculate_price_unknown_keys.2 "phd" "zzz" 4
     { name := "Doctorat", emoji := "🔬", base_price := 32 } rfl rfl⟩

/-- C3: at step `order_pages`, a text that is non-numeric or parses outside
`[1, 50]` leaves the session's step and data (hence the absent `pages` entry)
unchanged, while a text parsing to `p ∈ [1, 50]` stores `pages = p` and moves
the step to `order_deadline`. -/
theorem order_pages_validation (now : ℤ) (sendOk : Bool) (m : Store) (uid : ℤ)
    (msg : String) (s : UserSession)
    (h : storeLookup uid m = some s) (hstep : s.step = "order_pages")
    (hlen : m.length ≤ MAX_SESSIONS) :
    (pyParseInt (pyStrip msg) = none →
       ∃ s2, storeLookup uid (text_handler now sendOk m uid msg) = some s2 ∧
         s2.step = s.step ∧ s2.data = s.data) ∧
    (∀ p, pyParseInt (pyStrip msg) = some p → (p ≤ 0 ∨ 50 < p) →
       ∃ s2, storeLookup uid (text_handler now sendOk m uid msg) = some s2 ∧
         s2.step = s.step ∧ s2.data = s.data) ∧
    (∀ p, pyParseInt (pyStrip msg) = some p → 1 ≤ p → p ≤ 50 →
       ∃ s2, storeLookup uid (text_handler now sendOk m uid msg) = some s2 ∧
         s2.step = "order_deadline" ∧
         dictGet "pages" s2.data = some (Val.vi p)) := by
  have hfound := get_session_found now m uid s hlen h
  have hl1 : storeLookup uid (storeInsert uid { s with last_activity := now } m)
      = some { s with last_activity := now } := storeLookup_storeInsert_self _ _ _
  have hlen1 : (storeInsert uid { s with last_activity := now } m).length ≤ MAX_SESSIONS := by
    rw [length_storeInsert_of_lookup uid _ m s h]; exact hlen
  refine ⟨?_, ?_, ?_⟩
  · intro hparse
    refine ⟨{ s with last_activity := now }, ?_, rfl, rfl⟩
    simp only [text_handler, hfound]
    simp +decide [hstep, hparse]
    exact storeLookup_storeInsert_self _ _ _
  · intro p hparse hrange
    refine ⟨{ s with last_activity := now }, ?_, rfl, rfl⟩
    simp only [text_handler, hfound]
    have hr : (p ≤ 0 ∨ 50 < p) = True := by simp [hrange]
    simp +decide [hstep, hparse, hr]
    exact storeLookup_storeInsert_self _ _ _
  · intro p hparse h1 h50
    have hr : ¬ (p ≤ 0 ∨ 50 < p) := by omega
    refine ⟨{ s with step := "order_deadline", data := dictInsert "pages" (Val.vi p) s.data, last_activity := now }, ?_, rfl, dictGet_dictInsert_self _ _ _⟩
    have e1 : (({ s with last_activity := now } : UserSession).step = "order_subject") = False := by
      simp +decide [hstep]
    have e2 : (({ s with last_activity := now } : UserSession).step = "order_pages") = True := by
      simp [hstep]
    simp only [text_handler, hfound, e1, e2, if_false, if_true, hparse]
    rw [if_neg hr,
      update_session_eq now _ uid _ _ { s with last_activity := now } hl1 hlen1,
      stepUpd_some _ _ (by decide), dataUpd_single]
    exact storeLookup_storeInsert_self _ _ _

/-- Witness for C3: a concrete store where the user is at `order_pages`; the
message `"abc"` re-prompts without mutation and `"5"` stores `pages = 5`. -/
theorem order_pages_validation_witness :
    (∃ s2, storeLookup 1 (text_handler 10 true
        [(1, ⟨1, "order_pages", [("subject", Val.vs "X")], 0, 0, []⟩)] 1 "abc") = some s2 ∧
       s2.step = "order_pages" ∧ s2.data = [("subject", Val.vs "X")]) ∧
    (∃ s2, storeLookup 1 (text_handler 10 true
        [(1, ⟨1, "order_pages", [("subject", Val.vs "X")], 0, 0, []⟩)] 1 "5") = some s2 ∧
       s2.step = "order_deadline" ∧ dictGet "pages" s2.data = some (Val.vi 5)) := by
  constructor
  · exact (order_pages_validation 10 true
      [(1, ⟨1, "order_pages", [("subject", Val.vs "X")], 0, 0, []⟩)] 1 "abc"
      ⟨1, "order_pages", [("subject", Val.vs "X")], 0, 0, []⟩
      (by decide) rfl (by decide)).1 (by decide)
  · exact (order_pages_validation 10 true
      [(1, ⟨1, "order_pages", [("subject", Val.vs "X")], 0, 0, []⟩)] 1 "5"
      ⟨1, "order_pages", [("subject", Val.vs "X")], 0, 0, []⟩
      (by decide) rfl (by decide)).2.2 5 (by decide) (by decide) (by decide)

/-- C4: the files list never exceeds `MAX_FILES_PER_ORDER` (5): `add_file`
returns `False` and leaves the session unchanged at the cap, the files list
grows to at most the cap, and `file_handler` preserves the bound. -/
theorem files_capped :
    (∀ (s : UserSession) (fid fn : String) (fs ts : ℤ),
        MAX_FILES_PER_ORDER ≤ s.files.length →
        s.add_file fid fn fs ts = (false, s)) ∧
    (∀ (s : UserSession) (fid fn : String) (fs ts : ℤ),
        (s.add_file fid fn fs ts).2.files.length
          ≤ max s.files.length MAX_FILES_PER_ORDER) ∧
    (∀ (now : ℤ) (m : Store) (uid : ℤ) (msg : FileMsg) (s : UserSession),
        storeLookup uid m = some s → s.files.length ≤ MAX_FILES_PER_ORDER →
        m.length ≤ MAX_SESSIONS →
        ∃ s2, storeLookup uid (file_handler now m uid msg) = some s2 ∧
          s2.files.length ≤ MAX_FILES_PER_ORDER) := by
  refine ⟨?_, ?_, ?_⟩
  · intro s fid fn fs ts hcap
    simp [UserSession.add_file, Nat.not_lt.2 hcap]
  · intro s fid fn fs ts
    by_cases hlt : s.files.length < MAX_FILES_PER_ORDER
    · simp only [UserSession.add_file, if_pos hlt]
      simp only [List.length_append, List.length_singleton]
      exact le_max_of_le_right hlt
    · simp [UserSession.add_file, hlt, le_max_left]
  · intro now m uid msg s h hfiles hlen
    have hfound := get_session_found now m uid s hlen h
    have hl1 : storeLookup uid (storeInsert uid { s with last_activity := now } m)
        = some { s with last_activity := now } := storeLookup_storeInsert_self _ _ _
    by_cases hstep : s.step = "order_files"
    · have e1 : ((({ s with last_activity := now } : UserSession).step ≠ "order_files")) = False := by
        simp [hstep]
      by_cases hcap : MAX_FILES_PER_ORDER ≤ s.files.length
      · have e2 : (MAX_FILES_PER_ORDER ≤ (({ s with last_activity := now } : UserSession)).files.length) = True := by
          simp [hcap]
        refine ⟨{ s with last_activity := now }, ?_, hfiles⟩
        simp only [file_handler, hfound, e1, e2, if_false, if_true]
        exact hl1
      · have e2 : (MAX_FILES_PER_ORDER ≤ (({ s with last_activity := now } : UserSession)).files.length) = False := by
          simp [hcap]
        have hlt : s.files.length < MAX_FILES_PER_ORDER := Nat.lt_of_not_le hcap
        have hbound : s.files.length + 1 ≤ MAX_FILES_PER_ORDER := hlt
        cases msg with
        | other =>
            refine ⟨{ s with last_activity := now }, ?_, hfiles⟩
            simp only [file_handler, hfound, e1, e2, if_false]
            exact hl1
        | document fid name size =>
            by_cases hsz : 20 * 1024 * 1024 < orElseInt size
            · refine ⟨{ s with last_activity := now }, ?_, hfiles⟩
              simp only [file_handler, hfound, e1, e2, if_false]
              rw [if_pos hsz]
              exact hl1
            · have hres : storeLookup uid (file_handler now m uid (FileMsg.document fid name size))
                  = some (UserSession.add_file { s with last_activity := now } fid
                      (orElseStr name "document") (orElseInt size) now).2 := by
                simp only [file_handler, hfound, e1, e2, if_false]
                rw [if_neg hsz]
                exact storeLookup_storeInsert_self _ _ _
              refine ⟨_, hres, ?_⟩
              simp only [UserSession.add_file]
              rw [if_pos hlt]
              simpa using hbound
        | photo fid size =>
            by_cases hsz : 20 * 1024 * 1024 < orElseInt size
            · refine ⟨{ s with last_activity := now }, ?_, hfiles⟩
              simp only [file_handler, hfound, e1, e2, if_false]
              rw [if_pos hsz]
              exact hl1
            · have hres : storeLookup uid (file_handler now m uid (FileMsg.photo fid size))
                  = some (UserSession.add_file { s with last_activity := now } fid
                      ("image_" ++ toString (s.files.length + 1) ++ ".jpg")
                      (orElseInt size) now).2 := by
                simp only [file_handler, hfound, e1, e2, if_false]
                rw [if_neg hsz]
                exact storeLookup_storeInsert_self _ _ _
              refine ⟨_, hres, ?_⟩
              simp only [UserSession.add_file]
              rw [if_pos hlt]
              simpa using hbound
    · have e1 : ((({ s with last_activity := now } : UserSession).step ≠ "order_files")) = True := by
        simp [hstep]
      refine ⟨{ s with last_activity := now }, ?_, hfiles⟩
      simp only [file_handler, hfound, e1, if_true]
      exact hl1

/-- Witness for C4: a session already holding 5 files rejects a sixth file,
unchanged, and `file_handler` keeps the invariant on a concrete store. -/
theorem files_capped_witness :
    UserSession.add_file
        ⟨1, "order_files", [], 0, 0, List.replicate 5 ⟨"id", "n", 1, 0⟩⟩ "f" "g" 1 0
      = (false, ⟨1, "order_files", [], 0, 0, List.replicate 5 ⟨"id", "n", 1, 0⟩⟩) ∧
    (∃ s2, storeLookup 1 (file_handler 10
        [(1, ⟨1, "order_files", [], 0, 0, List.replicate 5 ⟨"id", "n", 1, 0⟩⟩)] 1
        (FileMsg.document "f" (some "g") (some 1))) = some s2 ∧
      s2.files.length ≤ MAX_FILES_PER_ORDER) :=
  ⟨files_capped.1 ⟨1, "order_files", [], 0, 0, List.replicate 5 ⟨"id", "n", 1, 0⟩⟩
      "f" "g" 1 0 (by decide),
   files_capped.2.2 10 [(1, ⟨1, "order_files", [], 0, 0, List.replicate 5 ⟨"id", "n", 1, 0⟩⟩)]
      1 (FileMsg.document "f" (some "g") (some 1))
      ⟨1, "order_files", [], 0, 0, List.replicate 5 ⟨"id", "n", 1, 0⟩⟩
      (by decide) (by decide) (by decide)⟩

/-- C5: `create_session` unconditionally stores a fresh session (empty data,
empty files) for the user, whatever was there before; `start_order_flow` does
exactly this with initial step `order_subject`, discarding prior partial data. -/
theorem create_session_replaces :
    ∀ (now : ℤ) (m : Store) (uid : ℤ) (step : String),
      (create_session now m uid step).1
          = { user_id := uid, step := step, data := [], created_at := now, last_activity := now, files := [] } ∧
      storeLookup uid (create_session now m uid step).2
          = some { user_id := uid, step := step, data := [], created_at := now, last_activity := now, files := [] } ∧
      storeLookup uid (start_order_flow now m uid)
          = some { user_id := uid, step := "order_subject", data := [], created_at := now, last_activity := now, files := [] } :=
  fun _ _ _ _ =>
    ⟨rfl, storeLookup_storeInsert_self _ _ _, storeLookup_storeInsert_self _ _ _⟩

theorem storeLookup_update_session (now : ℤ) (m : Store) (uid : ℤ)
    (st : Option String) (patch : Option (List (String × Val))) (s : UserSession)
    (h : storeLookup uid m = some s) (hlen : m.length ≤ MAX_SESSIONS) :
    storeLookup uid (update_session now m uid st patch)
      = some { s with step := stepUpd st s.step, data := dataUpd patch s.data, last_activity := now } := by
  rw [update_session_eq now m uid st patch s h hlen]
  exact storeLookup_storeInsert_self _ _ _

theorem length_update_session (now : ℤ) (m : Store) (uid : ℤ)
    (st : Option String) (patch : Option (List (String × Val))) (s : UserSession)
    (h : storeLookup uid m = some s) (hlen : m.length ≤ MAX_SESSIONS) :
    (update_session now m uid st patch).length = m.length := by
  rw [update_session_eq now m uid st patch s h hlen,
    length_storeInsert_of_lookup _ _ _ _ h]

/-- `file_handler` never touches the session's `data` dict. -/
theorem file_handler_data (now : ℤ) (m : Store) (uid : ℤ) (msg : FileMsg)
    (s : UserSession) (h : storeLookup uid m = some s)
    (hlen : m.length ≤ MAX_SESSIONS) :
    ∃ s2, storeLookup uid (file_handler now m uid msg) = some s2 ∧
      s2.data = s.data := by
  have hfound := get_session_found now m uid s hlen h
  have hl1 : storeLookup uid (storeInsert uid { s with last_activity := now } m)
      = some { s with last_activity := now } := storeLookup_storeInsert_self _ _ _
  by_cases hstep : s.step = "order_files"
  · have e1 : ((({ s with last_activity := now } : UserSession).step ≠ "order_files")) = False := by
      simp [hstep]
    by_cases hcap : MAX_FILES_PER_ORDER ≤ s.files.length
    · have e2 : (MAX_FILES_PER_ORDER ≤ (({ s with last_activity := now } : UserSession)).files.length) = True := by
        simp [hcap]
      refine ⟨{ s with last_activity := now }, ?_, rfl⟩
      simp only [file_handler, hfound, e1, e2, if_false, if_true]
      exact hl1
    · have e2 : (MAX_FILES_PER_ORDER ≤ (({ s with last_activity := now } : UserSession)).files.length) = False := by
        simp [hcap]
      have hlt : s.files.length < MAX_FILES_PER_ORDER := Nat.lt_of_not_le hcap
      cases msg with
      | other =>
          refine ⟨{ s with last_activity := now }, ?_, rfl⟩
          simp only [file_handler, hfound, e1, e2, if_false]
          exact hl1
      | document fid name size =>
          by_cases hsz : 20 * 1024 * 1024 < orElseInt size
          · refine ⟨{ s with last_activity := now }, ?_, rfl⟩
            simp only [file_handler, hfound, e1, e2, if_false]
            rw [if_pos hsz]
            exact hl1
          · have hres : storeLookup uid (file_handler now m uid (FileMsg.document fid name size))
                = some (UserSession.add_file { s with last_activity := now } fid
                    (orElseStr name "document") (orElseInt size) now).2 := by
              simp only [file_handler, hfound, e1, e2, if_false]
              rw [if_neg hsz]
              exact storeLookup_storeInsert_self _ _ _
            refine ⟨_, hres, ?_⟩
            simp only [UserSession.add_file]
            rw [if_pos hlt]
      | photo fid size =>
          by_cases hsz : 20 * 1024 * 1024 < orElseInt size
          · refine ⟨{ s with last_activity := now }, ?_, rfl⟩
            simp only [file_handler, hfound, e1, e2, if_false]
            rw [if_pos hsz]
            exact hl1
          · have hres : storeLookup uid (file_handler now m uid (FileMsg.photo fid size))
                = some (UserSession.add_file { s with last_activity := now } fid
                    ("image_" ++ toString (s.files.length + 1) ++ ".jpg")
                    (orElseInt size) now).2 := by
              simp only [file_handler, hfound, e1, e2, if_false]
              rw [if_neg hsz]
              exact storeLookup_storeInsert_self _ _ _
            refine ⟨_, hres, ?_⟩
            simp only [UserSession.add_file]
            rw [if_pos hlt]
  · have e1 : ((({ s with last_activity := now } : UserSession).step ≠ "order_files")) = True := by
      simp [hstep]
    refine ⟨{ s with last_activity := now }, ?_, rfl⟩
    simp only [file_handler, hfound, e1, if_true]
    exact hl1

/-- Full effect of `handle_deadline_selection` on an existing session: it
always completes (returns `true`), moves the step to `order_instructions`,
stores the deadline key extracted from the callback data, and stores
`final_price` as computed by the pricing engine from the previously stored
level and pages and the selected deadline key. -/
theorem handle_deadline_selection_spec (now : ℤ) (m : Store) (uid : ℤ)
    (cbdata : String) (s : UserSession)
    (h : storeLookup uid m = some s) (hlen : m.length ≤ MAX_SESSIONS) :
    (handle_deadline_selection now m uid cbdata).2 = true ∧
    ∃ s2, storeLookup uid (handle_deadline_selection now m uid cbdata).1 = some s2 ∧
      s2.step = "order_instructions" ∧
      dictGet "deadline" s2.data = some (Val.vs (pyReplace cbdata "deadline_" "")) ∧
      dictGet "final_price" s2.data
        = some (Val.vq (calculate_price (valToStr (dictGet "level" s.data))
            (some (pyReplace cbdata "deadline_" ""))
            (valToInt (dictGet "pages" s.data) 1))) := by
  have hfound := get_session_found now m uid s hlen h
  have hl1 : storeLookup uid (storeInsert uid { s with last_activity := now } m)
      = some { s with last_activity := now } := storeLookup_storeInsert_self _ _ _
  have hlen1 : (storeInsert uid { s with last_activity := now } m).length ≤ MAX_SESSIONS := by
    rw [length_storeInsert_of_lookup uid _ m s h]; exact hlen
  have hlk2 := storeLookup_update_session now _ uid (some "order_instructions")
    (some [("deadline", Val.vs (pyReplace cbdata "deadline_" ""))]) _ hl1 hlen1
  rw [stepUpd_some _ _ (by decide), dataUpd_single] at hlk2
  have hlen2 : (update_session now (storeInsert uid { s with last_activity := now } m) uid
      (some "order_instructions")
      (some [("deadline", Val.vs (pyReplace cbdata "deadline_" ""))])).length
      ≤ MAX_SESSIONS := by
    rw [length_update_session now _ uid _ _ _ hl1 hlen1]
    exact hlen1
  constructor
  · simp only [handle_deadline_selection, hfound, hlk2]
  · simp only [handle_deadline_selection, hfound, hlk2]
    refine ⟨_, storeLookup_update_session now _ uid none _ _ hlk2 hlen2, ?_, ?_, ?_⟩
    · simp [stepUpd]
    · simp only [stepUpd, dataUpd_single]
      rw [dictGet_dictInsert_ne _ _ _ _ (by decide)]
      exact dictGet_dictInsert_self _ _ _
    · simp only [stepUpd, dataUpd_single, dictGet_dictInsert_self, Option.some_inj, Val.vq.injEq]
      rw [dictGet_dictInsert_ne _ _ _ _ (by decide), dictGet_dictInsert_ne _ _ _ _ (by decide)]

/-- With an unknown deadline key the multiplier defaults, so the price equals
the no-deadline price. -/
theorem calculate_price_deadline_default (lvl : Option String) (key : String)
    (p : ℤ) (h : DEADLINES key = none) :
    calculate_price lvl (some key) p = calculate_price lvl none p := by
  cases hl : lvl.bind LEVELS <;> simp [calculate_price, hl, h]

/-- C6: `final_price` is written at the deadline-selection transition, from
the stored level and pages and the selected deadline; the later flow operations
(instructions text, file upload) do not touch it, and the summary and payment
texts display the stored value. -/
theorem final_price_locked (now : ℤ) (m : Store) (uid : ℤ) (s : UserSession)
    (h : storeLookup uid m = some s) (hlen : m.length ≤ MAX_SESSIONS) :
    (∀ cbdata, ∃ s2,
        storeLookup uid (handle_deadline_selection now m uid cbdata).1 = some s2 ∧
        s2.step = "order_instructions" ∧
        dictGet "final_price" s2.data
          = some (Val.vq (calculate_price (valToStr (dictGet "level" s.data))
              (some (pyReplace cbdata "deadline_" ""))
              (valToInt (dictGet "pages" s.data) 1)))) ∧
    (∀ (sendOk : Bool) (msg : String), s.step = "order_instructions" →
        ∃ s2, storeLookup uid (text_handler now sendOk m uid msg) = some s2 ∧
          dictGet "final_price" s2.data = dictGet "final_price" s.data) ∧
    (∀ msg, ∃ s2, storeLookup uid (file_handler now m uid msg) = some s2 ∧
        s2.data = s.data) ∧
    ((valToStr (dictGet "level" s.data)).bind LEVELS ≠ none →
     (valToStr (dictGet "deadline" s.data)).bind DEADLINES ≠ none →
        display_order_summary_price now m uid
          = some (valToQ (dictGet "final_price" s.data) 0)) ∧
    send_payment_info_price now m uid
      = some (valToQ (dictGet "final_price" s.data) 0) := by
  have hfound := get_session_found now m uid s hlen h
  have hl1 : storeLookup uid (storeInsert uid { s with last_activity := now } m)
      = some { s with last_activity := now } := storeLookup_storeInsert_self _ _ _
  have hlen1 : (storeInsert uid { s with last_activity := now } m).length ≤ MAX_SESSIONS := by
    rw [length_storeInsert_of_lookup uid _ m s h]; exact hlen
  refine ⟨?_, ?_, ?_, ?_, ?_⟩
  · intro cbdata
    obtain ⟨-, s2, hlk, hstep2, -, hfp⟩ :=
      handle_deadline_selection_spec now m uid cbdata s h hlen
    exact ⟨s2, hlk, hstep2, hfp⟩
  · intro sendOk msg hstep
    have e1 : (({ s with last_activity := now } : UserSession).step = "order_subject") = False := by
      simp +decide [hstep]
    have e2 : (({ s with last_activity := now } : UserSession).step = "order_pages") = False := by
      simp +decide [hstep]
    have e3 : (({ s with last_activity := now } : UserSession).step = "order_instructions") = True := by
      simp [hstep]
    simp only [text_handler, hfound, e1, e2, e3, if_false, if_true]
    refine ⟨_, storeLookup_update_session now _ uid (some "order_files")
      (some [("instructions_text", Val.vs msg)]) _ hl1 hlen1, ?_⟩
    simp only [dataUpd_single]
    exact dictGet_dictInsert_ne _ _ _ _ (by decide)
  · intro msg
    exact file_handler_data now m uid msg s h hlen
  · intro hlv hdl
    obtain ⟨ld, hld⟩ := Option.ne_none_iff_exists'.mp hlv
    obtain ⟨dd, hdd⟩ := Option.ne_none_iff_exists'.mp hdl
    simp only [display_order_summary_price, hfound, hld, hdd]
  · simp only [send_payment_info_price, hfound]

/-- Witness for C6: a concrete session with `level = bachelor`, `pages = 2`
selecting deadline `24h` ends at step `order_instructions` with `final_price`
stored as the pricing-engine result. -/
theorem final_price_locked_witness :
    ∃ s2, storeLookup 1 (handle_deadline_selection 10
        [(1, ⟨1, "order_deadline", [("level", Val.vs "bachelor"), ("pages", Val.vi 2)], 0, 0, []⟩)]
        1 "deadline_24h").1 = some s2 ∧
      s2.step = "order_instructions" ∧
      dictGet "final_price" s2.data
        = some (Val.vq (calculate_price
            (valToStr (dictGet "level" [("level", Val.vs "bachelor"), ("pages", Val.vi 2)]))
            (some (pyReplace "deadline_24h" "deadline_" ""))
            (valToInt (dictGet "pages" [("level", Val.vs "bachelor"), ("pages", Val.vi 2)]) 1))) :=
  (final_price_locked 10
    [(1, ⟨1, "order_deadline", [("level", Val.vs "bachelor"), ("pages", Val.vi 2)], 0, 0, []⟩)]
    1 ⟨1, "order_deadline", [("level", Val.vs "bachelor"), ("pages", Val.vi 2)], 0, 0, []⟩
    (by decide) (by decide)).1 "deadline_24h"

/-- Counterexample to C7: a level-button press whose embedded key `"zzz"` is
not in the catalog does NOT leave the session unmutated — `update_session` runs
before the failing catalog subscript, so the step becomes `order_pages` and
`data['level'] = "zzz"` is stored (the subscript failure, flag `false`, only
aborts the reply). -/
theorem unknown_key_ignored_counterexample :
    LEVELS "zzz" = none ∧
    (handle_level_selection 10
        [(1, ⟨1, "order_level", [("subject", Val.vs "X")], 0, 0, []⟩)] 1 "level_zzz").2 = false ∧
    storeLookup 1 (handle_level_selection 10
        [(1, ⟨1, "order_level", [("subject", Val.vs "X")], 0, 0, []⟩)] 1 "level_zzz").1
      = some ⟨1, "order_pages", [("subject", Val.vs "X"), ("level", Val.vs "zzz")], 0, 10, []⟩ := by
  decide

/-- C7 amended: a level-button press stores its (possibly unknown) key and
moves the step to `order_pages` before the catalog subscript can fail (the
failure only suppresses the reply, with no rollback); a deadline-button press
with an unknown key is processed as a normal selection — the deadline is
stored, the step advances to `order_instructions`, and `final_price` is
computed with the default multiplier 1.0. -/
theorem unknown_key_not_ignored (now : ℤ) (m : Store) (uid : ℤ) (s : UserSession)
    (h : storeLookup uid m = some s) (hlen : m.length ≤ MAX_SESSIONS) :
    (∀ cbdata, (LEVELS (pyReplace cbdata "level_" "") = none →
        (handle_level_selection now m uid cbdata).2 = false) ∧
      ∃ s2, storeLookup uid (handle_level_selection now m uid cbdata).1 = some s2 ∧
        s2.step = "order_pages" ∧
        dictGet "level" s2.data = some (Val.vs (pyReplace cbdata "level_" ""))) ∧
    (∀ cbdata, DEADLINES (pyReplace cbdata "deadline_" "") = none →
      (handle_deadline_selection now m uid cbdata).2 = true ∧
      ∃ s2, storeLookup uid (handle_deadline_selection now m uid cbdata).1 = some s2 ∧
        s2.step = "order_instructions" ∧
        dictGet "deadline" s2.data = some (Val.vs (pyReplace cbdata "deadline_" "")) ∧
        dictGet "final_price" s2.data
          = some (Val.vq (calculate_price (valToStr (dictGet "level" s.data)) none
              (valToInt (dictGet "pages" s.data) 1)))) := by
  constructor
  · intro cbdata
    constructor
    · intro hk
      simp [handle_level_selection, hk]
    · simp only [handle_level_selection]
      refine ⟨_, storeLookup_update_session now m uid (some "order_pages")
        (some [("level", Val.vs (pyReplace cbdata "level_" ""))]) s h hlen, ?_, ?_⟩
      · simp +decide [stepUpd]
      · simp [dataUpd_single, dictGet_dictInsert_self]
  · intro cbdata hdk
    obtain ⟨hflag, s2, hlk, hstep2, hdl, hfp⟩ :=
      handle_deadline_selection_spec now m uid cbdata s h hlen
    refine ⟨hflag, s2, hlk, hstep2, hdl, ?_⟩
    rw [hfp, calculate_price_deadline_default _ _ _ hdk]

/-- Witness for the amended C7: with level `bachelor` and pages `2` stored, the
unknown deadline key `"yyy"` is accepted and priced with multiplier 1. -/
theorem unknown_key_not_ignored_witness :
    ∃ s2, storeLookup 1 (handle_deadline_selection 10
        [(1, ⟨1, "order_deadline", [("level", Val.vs "bachelor"), ("pages", Val.vi 2)], 0, 0, []⟩)]
        1 "deadline_yyy").1 = some s2 ∧
      s2.step = "order_instructions" ∧
      dictGet "deadline" s2.data = some (Val.vs (pyReplace "deadline_yyy" "deadline_" "")) ∧
      dictGet "final_price" s2.data
        = some (Val.vq (calculate_price
            (valToStr (dictGet "level" [("level", Val.vs "bachelor"), ("pages", Val.vi 2)])) none
            (valToInt (dictGet "pages" [("level", Val.vs "bachelor"), ("pages", Val.vi 2)]) 1))) :=
  (((unknown_key_not_ignored 10
    [(1, ⟨1, "order_deadline", [("level", Val.vs "bachelor"), ("pages", Val.vi 2)], 0, 0, []⟩)]
    1 ⟨1, "order_deadline", [("level", Val.vs "bachelor"), ("pages", Val.vi 2)], 0, 0, []⟩
    (by decide) (by decide)).2 "deadline_yyy" (by decide)).2)

theorem storeLookup_filter_of_none (p : ℤ × UserSession → Bool) (m : Store)
    (uid : ℤ) (h : storeLookup uid m = none) :
    storeLookup uid (m.filter p) = none := by
  induction m with
  | nil => exact h
  | cons kv rest ih =>
      obtain ⟨a, b⟩ := kv
      by_cases hk : a = uid
      · subst hk
        simp [storeLookup] at h
      · simp only [storeLookup, if_neg hk] at h
        cases hpk : p (a, b) with
        | true => simp [List.filter_cons, hpk, storeLookup, hk, ih h]
        | false =>
            simp only [List.filter_cons, hpk, Bool.false_eq_true, if_false]
            exact ih h

/-- Counterexample to C8: `create_session` never invokes the expiry sweep.  On
a store of 101 sessions (above the capacity of 100), all idle since time 0,
creating a session for a fresh user at time 10000 leaves the expired session
of user 0 in the store — although the sweep, had it been invoked as the claim
states, would have removed it. -/
theorem sweep_before_create_counterexample :
    MAX_SESSIONS < bigStore.length ∧
    SESSION_TIMEOUT < 10000 - (expiredSession 0).last_activity ∧
    storeLookup 0 (cleanup_old_sessions 10000 bigStore) = none ∧
    storeLookup 0 (create_session 10000 bigStore 500 "menu").2 = some (expiredSession 0) := by
  refine ⟨by decide, by decide, by decide, by decide⟩

/-- C8 amended: the sweep removes exactly the sessions whose idle time exceeds
the timeout, and it is invoked before `get` (but not before `create`) when the
store size exceeds the capacity; hence a session idle longer than the timeout
is absent from a `get` that triggers the sweep. -/
theorem sweep_semantics :
    (∀ (now : ℤ) (m : Store) (uid : ℤ) (s : UserSession), storeWF m →
      (storeLookup uid (cleanup_old_sessions now m) = some s ↔
        storeLookup uid m = some s ∧ now - s.last_activity ≤ SESSION_TIMEOUT)) ∧
    (∀ (now : ℤ) (m : Store) (uid : ℤ) (s : UserSession), storeWF m →
      MAX_SESSIONS < m.length →
      storeLookup uid m = some s → SESSION_TIMEOUT < now - s.last_activity →
      (get_session now m uid).1 = none) := by
  constructor
  · intro now m uid s hwf
    constructor
    · intro hc
      cases hm : storeLookup uid m with
      | none =>
          rw [cleanup_old_sessions, storeLookup_filter_of_none _ _ _ hm] at hc
          exact absurd hc (by simp)
      | some t =>
          cases hpt : decide (now - t.last_activity ≤ SESSION_TIMEOUT) with
          | true =>
              have hfp := storeLookup_filter_pos
                (fun kv => decide (now - kv.2.last_activity ≤ SESSION_TIMEOUT))
                m uid t hm hpt
              rw [cleanup_old_sessions, hfp] at hc
              injection hc with ht
              subst ht
              exact ⟨rfl, of_decide_eq_true hpt⟩
          | false =>
              have hfn := storeLookup_filter_neg
                (fun kv => decide (now - kv.2.last_activity ≤ SESSION_TIMEOUT))
                m uid t hwf hm hpt
              rw [cleanup_old_sessions, hfn] at hc
              exact absurd hc (by simp)
    · rintro ⟨hm, hle⟩
      exact storeLookup_filter_pos _ m uid s hm (decide_eq_true hle)
  · intro now m uid s hwf hbig hm hexp
    have hnone : storeLookup uid (cleanup_old_sessions now m) = none := by
      refine storeLookup_filter_neg _ m uid s hwf hm ?_
      simp only [decide_eq_false_iff_not, not_le]
      exact hexp
    simp only [get_session, if_pos hbig, hnone]

/-- Witness for the amended C8: on the over-capacity store of expired
sessions, `get_session` at time 10000 sweeps and reports user 0 as absent. -/
theorem sweep_semantics_witness :
    (get_session 10000 bigStore 0).1 = none :=
  sweep_semantics.2 10000 bigStore 0 (expiredSession 0)
    (show (bigStore.map Prod.fst).Nodup by decide)
    (by decide) (by decide) (by decide)

/-- C9: `get_session` never checks the expiry of the looked-up session: on a
store within capacity, an arbitrarily long-idle session is still returned,
with its `last_activity` reset to now (revived, not evicted). -/
theorem get_session_revives_expired (now : ℤ) (m : Store) (uid : ℤ)
    (s : UserSession) (hlen : m.length ≤ MAX_SESSIONS)
    (h : storeLookup uid m = some s)
    (_hexp : SESSION_TIMEOUT < now - s.last_activity) :
    (get_session now m uid).1 = some { s with last_activity := now } ∧
    storeLookup uid (get_session now m uid).2
      = some { s with last_activity := now } := by
  rw [get_session_found now m uid s hlen h]
  exact ⟨rfl, storeLookup_storeInsert_self _ _ _⟩

/-- Witness for C9: a single session idle for 10000 seconds (timeout 1800) is
returned by `get_session` with `last_activity` touched. -/
theorem get_session_revives_expired_witness :
    (get_session 10000 [(7, expiredSession 7)] 7).1
      = some { expiredSession 7 with last_activity := 10000 } ∧
    storeLookup 7 (get_session 10000 [(7, expiredSession 7)] 7).2
      = some { expiredSession 7 with last_activity := 10000 } :=
  get_session_revives_expired 10000 [(7, expiredSession 7)] 7 (expiredSession 7)
    (by decide) (by decide) (by decide)

/-- C10: at the deadline-selection transition, a missing `pages` entry defaults
to 1 in the price computation, and a missing `level` entry makes the computed
price 0.0; in both cases `final_price` is still stored and the step still
advances to `order_instructions` (the handler completes, flag `true`). -/
theorem deadline_selection_defaults (now : ℤ) (m : Store) (uid : ℤ)
    (s : UserSession) (h : storeLookup uid m = some s)
    (hlen : m.length ≤ MAX_SESSIONS) (cbdata : String) :
    (dictGet "pages" s.data = none →
      (handle_deadline_selection now m uid cbdata).2 = true ∧
      ∃ s2, storeLookup uid (handle_deadline_selection now m uid cbdata).1 = some s2 ∧
        s2.step = "order_instructions" ∧
        dictGet "final_price" s2.data
          = some (Val.vq (calculate_price (valToStr (dictGet "level" s.data))
              (some (pyReplace cbdata "deadline_" "")) 1))) ∧
    (dictGet "level" s.data = none →
      (handle_deadline_selection now m uid cbdata).2 = true ∧
      ∃ s2, storeLookup uid (handle_deadline_selection now m uid cbdata).1 = some s2 ∧
        s2.step = "order_instructions" ∧
        dictGet "final_price" s2.data = some (Val.vq 0)) := by
  obtain ⟨hflag, s2, hlk, hstep2, hdl, hfp⟩ :=
    handle_deadline_selection_spec now m uid cbdata s h hlen
  constructor
  · intro hp
    refine ⟨hflag, s2, hlk, hstep2, ?_⟩
    rw [hfp]
    simp [valToInt, hp]
  · intro hl
    refine ⟨hflag, s2, hlk, hstep2, ?_⟩
    rw [hfp]
    have hv : valToStr (dictGet "level" s.data) = none := by rw [hl]; rfl
    simp [hv, calculate_price]

/-- Witness for C10: a session with empty order data still completes deadline
selection, storing `final_price = 0` and step `order_instructions`. -/
theorem deadline_selection_defaults_witness :
    (handle_deadline_selection 10 [(3, ⟨3, "order_deadline", [], 0, 0, []⟩)] 3 "deadline_24h").2 = true ∧
    ∃ s2, storeLookup 3 (handle_deadline_selection 10
        [(3, ⟨3, "order_deadline", [], 0, 0, []⟩)] 3 "deadline_24h").1 = some s2 ∧
      s2.step = "order_instructions" ∧
      dictGet "final_price" s2.data = some (Val.vq 0) :=
  (deadline_selection_defaults 10 [(3, ⟨3, "order_deadline", [], 0, 0, []⟩)] 3
    ⟨3, "order_deadline", [], 0, 0, []⟩ (by decide) (by decide) "deadline_24h").2 rfl

end TlgBot
